import Mathlib

/-!
Verification of the DeFi yield finder pipeline (defi_yield_finder package):
a shallow embedding in Lean 4 of the data model, the safety scorer, the
ranker, the in-memory / hybrid TTL cache and the sliding-window rate
limiter, together with theorems settling the specification claims.

Python floats are modelled as rationals (`ℚ`), Python `time.time()`
timestamps as rationals, dictionaries as association lists, and the
fallible upstream HTTP call as an explicit `Except` outcome parameter.
-/

/-! ### Data model (src/defi_yield_finder/models.py) -/

/-- RiskLevel enum (models.py lines 7-12). -/
inductive RiskLevel where
  | VERY_LOW
  | LOW
  | MEDIUM
  | HIGH
  | VERY_HIGH
deriving DecidableEq, Repr

/-- Pool dataclass (models.py lines 15-31).  The `timestamp` field
(`datetime.now()`, an effectful default) is omitted: no claim observes it. -/
structure Pool where
  symbol : String
  project : String
  apy : ℚ
  tvl_usd : ℚ
  chain : String
  pool_id : String
  safety_score : ℚ := 0
  risk_level : RiskLevel := .MEDIUM
  pool_meta : Option String := none
  il_risk : Bool := false
  stable_pool : Bool := false
  reward_tokens : List String := []
  base_apy : ℚ := 0
  reward_apy : ℚ := 0
deriving DecidableEq, Repr

/-- SafetyScoreBreakdown dataclass (models.py lines 90-97). -/
structure SafetyScoreBreakdown where
  tvl_score : ℚ := 0
  protocol_score : ℚ := 0
  yield_score : ℚ := 0
  stability_score : ℚ := 0
  liquidity_score : ℚ := 0
  total_score : ℚ := 0
deriving DecidableEq, Repr

/-- SafetyScoreBreakdown.calculate_total (models.py lines 99-107): the total
is the sum of the five sub-scores. -/
def SafetyScoreBreakdown.calculate_total (b : SafetyScoreBreakdown) : ℚ :=
  b.tvl_score + b.protocol_score + b.yield_score + b.stability_score + b.liquidity_score

/-! ### Configuration (src/defi_yield_finder/config.py) -/

/-- Scalar configuration fields of DeFiConfig (config.py lines 5-77) used by
the core pipeline; the policy tables are bound below as separate constants. -/
structure DeFiConfig where
  API_TIMEOUT : ℚ := 10
  API_MAX_RETRIES : ℕ := 3
  API_MAX_REQUESTS_PER_HOUR : ℕ := 100
  CACHE_DURATION : ℚ := 3600
  CACHE_ENABLED : Bool := true
  MIN_SAFETY_SCORE : ℚ := 60
  MAX_RESULTS : ℕ := 20
  TARGET_CHAIN : String := "Base"
deriving DecidableEq, Repr

/-- The module-level `config = DeFiConfig()` singleton (config.py line 80). -/
def config : DeFiConfig := {}

/-- TVL_THRESHOLDS (config.py lines 22-27), in dict insertion order, as
(minimum, points) pairs: tier1 .. tier4. -/
def TVL_THRESHOLDS : List (ℚ × ℚ) :=
  [(100000000, 30), (50000000, 20), (10000000, 10), (0, 0)]

/-- PROTOCOL_TIERS tier1 set (config.py line 30). -/
def PROTOCOL_TIERS_tier1 : List String := ["aerodrome", "uniswap", "aave", "moonwell"]

/-- PROTOCOL_TIERS tier2 set (config.py line 31). -/
def PROTOCOL_TIERS_tier2 : List String := ["compound", "curve", "balancer", "sushiswap"]

/-- PROTOCOL_TIERS tier3 set (config.py line 32): empty. -/
def PROTOCOL_TIERS_tier3 : List String := []

/-- APY_THRESHOLDS (config.py lines 42-47): ordered half-open bands
(min, max, points); `float('inf')` is modelled as `none`. -/
def APY_THRESHOLDS : List (ℚ × Option ℚ × ℚ) :=
  [(5, some 30, 20), (30, some 50, 10), (50, some 100, 5), (100, none, 0)]

/-- WARNING_MESSAGES (config.py lines 62-67). -/
def WARNING_MESSAGES : List String :=
  ["High yield pools carry impermanent loss risk",
   "Always verify smart contract audits",
   "Past performance does not guarantee future results",
   "DeFi investments carry smart contract risk"]

/-! ### Safety scorer (defi_yield_finder.py lines 140-186) -/

/-- TVL score loop (defi_yield_finder.py lines 144-147): scan the ordered
threshold list, first tier whose minimum the TVL meets supplies its points,
`break`; the breakdown field stays at its default 0 when no tier matches. -/
def tvlScoreAux : List (ℚ × ℚ) → ℚ → ℚ
  | [], _ => 0
  | (mn, pts) :: rest, tvl => if mn ≤ tvl then pts else tvlScoreAux rest tvl

/-- TVL component of calculate_safety_score. -/
def tvl_score_of (tvl : ℚ) : ℚ := tvlScoreAux TVL_THRESHOLDS tvl

/-- Protocol reputation score (defi_yield_finder.py lines 149-158); the
PROTOCOL_SCORES values (config.py lines 35-40) are tier1=25, tier2=20,
tier3=10, unknown=0. -/
def protocol_score_of (project : String) : ℚ :=
  let project_lower := project.toLower
  if PROTOCOL_TIERS_tier1.contains project_lower then 25
  else if PROTOCOL_TIERS_tier2.contains project_lower then 20
  else if PROTOCOL_TIERS_tier3.contains project_lower then 10
  else 0

/-- Half-open band membership test `apy_range["min"] <= pool.apy <
apy_range["max"]` (defi_yield_finder.py line 162). -/
def apyInBand (apy mn : ℚ) (mx : Option ℚ) : Bool :=
  decide (mn ≤ apy) && (match mx with | some m => decide (apy < m) | none => true)

/-- Yield score loop (defi_yield_finder.py lines 160-164): first matching
band supplies its points, `break`; 0 when no band matches. -/
def yieldScoreAux : List (ℚ × Option ℚ × ℚ) → ℚ → ℚ
  | [], _ => 0
  | (mn, mx, pts) :: rest, apy =>
    if apyInBand apy mn mx then pts else yieldScoreAux rest apy

/-- Yield component of calculate_safety_score. -/
def yield_score_of (apy : ℚ) : ℚ := yieldScoreAux APY_THRESHOLDS apy

/-- Pool stability score (defi_yield_finder.py lines 166-174). -/
def stability_score_of (tvl : ℚ) : ℚ :=
  if 50000000 ≤ tvl then 15 else if 10000000 ≤ tvl then 10 else 5

/-- Liquidity health score (defi_yield_finder.py lines 176-183). -/
def liquidity_score_of (tvl : ℚ) : ℚ :=
  if 100000000 ≤ tvl then 10 else if 50000000 ≤ tvl then 7 else 3

/-- DeFiYieldFinder.calculate_safety_score (defi_yield_finder.py lines
140-186): builds the five sub-scores and sets the total via
calculate_total. -/
def calculate_safety_score (pool : Pool) : SafetyScoreBreakdown :=
  let breakdown : SafetyScoreBreakdown :=
    { tvl_score := tvl_score_of pool.tvl_usd
      protocol_score := protocol_score_of pool.project
      yield_score := yield_score_of pool.apy
      stability_score := stability_score_of pool.tvl_usd
      liquidity_score := liquidity_score_of pool.tvl_usd }
  { breakdown with total_score := breakdown.calculate_total }

/-- DeFiYieldFinder._determine_risk_level (defi_yield_finder.py lines
188-198), with SAFETY_SCORE_THRESHOLDS very_safe=80, safe=60, moderate=40,
risky=20 (config.py lines 55-60). -/
def _determine_risk_level (safety_score : ℚ) : RiskLevel :=
  if 80 ≤ safety_score then .VERY_LOW
  else if 60 ≤ safety_score then .LOW
  else if 40 ≤ safety_score then .MEDIUM
  else if 20 ≤ safety_score then .HIGH
  else .VERY_HIGH

/-! ### Sub-score bounds -/

/-- The TVL sub-score is one of 0, 10, 20, 30. -/
lemma tvl_score_of_bounds (tvl : ℚ) : 0 ≤ tvl_score_of tvl ∧ tvl_score_of tvl ≤ 30 := by
  simp only [tvl_score_of, TVL_THRESHOLDS, tvlScoreAux]
  split_ifs <;> norm_num

/-- The protocol sub-score is one of 0, 10, 20, 25. -/
lemma protocol_score_of_bounds (project : String) :
    0 ≤ protocol_score_of project ∧ protocol_score_of project ≤ 25 := by
  simp only [protocol_score_of]
  split_ifs <;> norm_num

/-- The yield sub-score is one of 0, 5, 10, 20. -/
lemma yield_score_of_bounds (apy : ℚ) : 0 ≤ yield_score_of apy ∧ yield_score_of apy ≤ 20 := by
  simp only [yield_score_of, APY_THRESHOLDS, yieldScoreAux]
  split_ifs <;> norm_num

/-- The stability sub-score is one of 5, 10, 15. -/
lemma stability_score_of_bounds (tvl : ℚ) :
    0 ≤ stability_score_of tvl ∧ stability_score_of tvl ≤ 15 := by
  simp only [stability_score_of]
  split_ifs <;> norm_num

/-- The liquidity sub-score is one of 3, 7, 10. -/
lemma liquidity_score_of_bounds (tvl : ℚ) :
    0 ≤ liquidity_score_of tvl ∧ liquidity_score_of tvl ≤ 10 := by
  simp only [liquidity_score_of]
  split_ifs <;> norm_num

/-- C7: for every Pool, the safety breakdown's total equals the sum of its
five sub-scores (tvl + protocol + yield + stability + liquidity), and this
total lies in [0, 100] given the per-component caps 30, 25, 20, 15, 10. -/
theorem safety_total_eq_sum_and_bounded (pool : Pool) :
    (calculate_safety_score pool).total_score =
        (calculate_safety_score pool).tvl_score +
        (calculate_safety_score pool).protocol_score +
        (calculate_safety_score pool).yield_score +
        (calculate_safety_score pool).stability_score +
        (calculate_safety_score pool).liquidity_score ∧
    0 ≤ (calculate_safety_score pool).total_score ∧
    (calculate_safety_score pool).total_score ≤ 100 := by
  have h1 := tvl_score_of_bounds pool.tvl_usd
  have h2 := protocol_score_of_bounds pool.project
  have h3 := yield_score_of_bounds pool.apy
  have h4 := stability_score_of_bounds pool.tvl_usd
  have h5 := liquidity_score_of_bounds pool.tvl_usd
  refine ⟨rfl, ?_, ?_⟩ <;>
    simp only [calculate_safety_score, SafetyScoreBreakdown.calculate_total] <;>
    linarith [h1.1, h1.2, h2.1, h2.2, h3.1, h3.2, h4.1, h4.2, h5.1, h5.2]

/-- C8: the yield sub-score uses half-open APY bands [min, max): APY exactly
30 receives 10 points (the [30,50) band, not [5,30)), and every APY strictly
below 5 receives 0 because no band matches. -/
theorem yield_score_half_open_bands :
    yield_score_of 30 = 10 ∧ ∀ apy : ℚ, apy < 5 → yield_score_of apy = 0 := by
  constructor
  · decide
  · intro apy h
    have h5 : ¬ (5 : ℚ) ≤ apy := not_le.mpr h
    have h30 : ¬ (30 : ℚ) ≤ apy := not_le.mpr (by linarith)
    have h50 : ¬ (50 : ℚ) ≤ apy := not_le.mpr (by linarith)
    have h100 : ¬ (100 : ℚ) ≤ apy := not_le.mpr (by linarith)
    simp [yield_score_of, APY_THRESHOLDS, yieldScoreAux, apyInBand, h5, h30, h50, h100]

/-- Witness for C8: APY 4 is strictly below 5 and scores 0; APY 30 scores 10. -/
theorem yield_score_half_open_bands_witness :
    yield_score_of 30 = 10 ∧ (4 : ℚ) < 5 ∧ yield_score_of 4 = 0 :=
  ⟨yield_score_half_open_bands.1, by norm_num, yield_score_half_open_bands.2 4 (by norm_num)⟩

/-! ### Ranker (defi_yield_finder.py lines 226-233) -/

/-- Composite ranking metric `p.apy * 0.7 + p.safety_score * 0.3`
(defi_yield_finder.py line 230). -/
def composite (p : Pool) : ℚ := p.apy * 0.7 + p.safety_score * 0.3

/-- Comparison used to model Python's stable `sort(key=..., reverse=True)`:
`a` may come before `b` when `b`'s key does not exceed `a`'s. -/
def poolLE (a b : Pool) : Bool := decide (composite b ≤ composite a)

/-- Safe-pool filter predicate (defi_yield_finder.py line 227). -/
def safeFilter (min_score : ℚ) (p : Pool) : Bool := decide (min_score ≤ p.safety_score)

/-- The ranking step of get_safe_base_yields (defi_yield_finder.py lines
226-233): filter by minimum safety score, stable-sort descending by the
composite metric (Python's list.sort is stable, modelled by mergeSort),
truncate to max_results. -/
def rankPools (pools : List Pool) (min_score : ℚ) (max_results : ℕ) : List Pool :=
  (((pools.filter (safeFilter min_score)).mergeSort poolLE).take max_results)

lemma poolLE_trans : ∀ a b c : Pool, poolLE a b → poolLE b c → poolLE a c := by
  intro a b c h1 h2
  simp only [poolLE, decide_eq_true_eq] at *
  exact le_trans h2 h1

lemma poolLE_total : ∀ a b : Pool, poolLE a b || poolLE b a := by
  intro a b
  simp only [poolLE, Bool.or_eq_true, decide_eq_true_eq]
  exact le_total (composite b) (composite a)

/-- C2: the ranking step returns at most max_results entries, every returned
entry has safety_score ≥ min_score, the returned sequence is non-increasing
in the composite metric 0.7*apy + 0.3*safety_score, any two entries with
equal composite metric keep their original (fetch) relative order in the
sorted sequence, and the returned list is a prefix (take) of that sorted
sequence. -/
theorem rank_properties (pools : List Pool) (min_score : ℚ) (max_results : ℕ) :
    (rankPools pools min_score max_results).length ≤ max_results ∧
    (∀ p ∈ rankPools pools min_score max_results, min_score ≤ p.safety_score) ∧
    (rankPools pools min_score max_results).Pairwise
      (fun a b => composite b ≤ composite a) ∧
    (∀ a b : Pool, composite a = composite b →
      [a, b].Sublist (pools.filter (safeFilter min_score)) →
      [a, b].Sublist ((pools.filter (safeFilter min_score)).mergeSort poolLE)) ∧
    rankPools pools min_score max_results =
      ((pools.filter (safeFilter min_score)).mergeSort poolLE).take max_results := by
  refine ⟨?_, ?_, ?_, ?_, rfl⟩
  · simp [rankPools, List.length_take]
  · intro p hp
    have h1 : p ∈ (pools.filter (safeFilter min_score)).mergeSort poolLE :=
      List.take_subset _ _ hp
    have h2 : p ∈ pools.filter (safeFilter min_score) := List.mem_mergeSort.mp h1
    have h3 := (List.mem_filter.mp h2).2
    simpa [safeFilter] using h3
  · have hs : ((pools.filter (safeFilter min_score)).mergeSort poolLE).Pairwise
        (fun a b => poolLE a b = true) :=
      List.sorted_mergeSort poolLE_trans poolLE_total _
    have ht : (rankPools pools min_score max_results).Pairwise
        (fun a b => poolLE a b = true) :=
      hs.sublist (List.take_sublist _ _)
    exact ht.imp (fun h => by simpa [poolLE] using h)
  · intro a b hab hsub
    exact List.pair_sublist_mergeSort poolLE_trans poolLE_total
      (by simp [poolLE, hab]) hsub

/-! ### Result assembly (defi_yield_finder.py lines 200-261) -/

/-- Python truthiness-based default `min_safety_score or config.MIN_SAFETY_SCORE`
(defi_yield_finder.py line 201): `None` and `0` are both falsy and select the
configured default. -/
def pyOr (x : Option ℚ) (d : ℚ) : ℚ :=
  match x with
  | none => d
  | some v => if v = 0 then d else v

/-- Python's banker's rounding of an integer-scaled value: round half to even. -/
def roundHalfEven (q : ℚ) : ℤ :=
  if q - ⌊q⌋ < 1/2 then ⌊q⌋
  else if 1/2 < q - ⌊q⌋ then ⌊q⌋ + 1
  else if ⌊q⌋ % 2 = 0 then ⌊q⌋ else ⌊q⌋ + 1

/-- Python `round(x, 2)` on the idealized (exact) value. -/
def pyRound2 (q : ℚ) : ℚ := (roundHalfEven (q * 100) : ℚ) / 100

/-- Python `max(...)` over a non-empty list (`[]` case is unreachable: the
caller guards with `if safe_pools:`). -/
def listMaxQ : List ℚ → ℚ
  | [] => 0
  | x :: xs => xs.foldl max x

/-- Summary record (defi_yield_finder.py lines 210-216 and 246-253).  The two
branches build dicts with different key sets; keys absent in a branch are
modelled as `none`. -/
structure Summary where
  total_pools_analyzed : ℕ
  safe_pools_found : ℕ
  highest_safe_yield : ℚ
  average_safe_yield : ℚ
  min_safety_score_used : Option ℚ
  chain : Option String
  error : Option String
deriving DecidableEq, Repr

/-- YieldFinderResult (models.py lines 110-116); `top_yields` keeps the Pool
entities in ranked order (the per-pool `to_dict` rendering is a projection
that no claim observes); `timestamp` and `cache_hit` are omitted. -/
structure YieldFinderResult where
  top_yields : List Pool
  summary : Summary
  warnings : List String
deriving DecidableEq, Repr

/-- DeFiYieldFinder.get_safe_base_yields (defi_yield_finder.py lines 200-261)
with the fetched pool list supplied as an argument: score each pool, attach
score and risk level, filter by the minimum score, stable-sort descending by
the composite metric, truncate to MAX_RESULTS, and build the summary. -/
def get_safe_base_yields (cfg : DeFiConfig) (pools : List Pool)
    (min_safety_score : Option ℚ) : YieldFinderResult :=
  let min_score := pyOr min_safety_score cfg.MIN_SAFETY_SCORE
  if pools.isEmpty then
    { top_yields := []
      summary := { total_pools_analyzed := 0, safe_pools_found := 0
                   highest_safe_yield := 0, average_safe_yield := 0
                   min_safety_score_used := none, chain := none
                   error := some "Failed to fetch pool data" }
      warnings := WARNING_MESSAGES }
  else
    let scored := pools.map (fun p =>
      let breakdown := calculate_safety_score p
      { p with safety_score := breakdown.total_score
               risk_level := _determine_risk_level breakdown.total_score })
    let safe_pools := scored.filter (safeFilter min_score)
    let sorted_pools := safe_pools.mergeSort poolLE
    let top_pools := sorted_pools.take cfg.MAX_RESULTS
    let highest_yield := if safe_pools.isEmpty then 0 else listMaxQ (safe_pools.map (·.apy))
    let average_yield :=
      if safe_pools.isEmpty then 0 else (safe_pools.map (·.apy)).sum / safe_pools.length
    { top_yields := top_pools
      summary := { total_pools_analyzed := pools.length
                   safe_pools_found := safe_pools.length
                   highest_safe_yield := pyRound2 highest_yield
                   average_safe_yield := pyRound2 average_yield
                   min_safety_score_used := some min_score
                   chain := some cfg.TARGET_CHAIN
                   error := none }
      warnings := WARNING_MESSAGES }

/-! ### Scenario 1 pools (test_defi_finder.py lines 13-66) -/

/-- Aerodrome/USDC-AERO: TVL 150M, APY 25.5, stable, no IL risk. -/
def aerodromePool : Pool :=
  { symbol := "USDC-AERO", project := "Aerodrome", apy := 25.5, tvl_usd := 150000000
    chain := "Base", pool_id := "pool-1", il_risk := false, stable_pool := true
    reward_tokens := ["AERO"], base_apy := 10.5, reward_apy := 15 }

/-- Uniswap/ETH-USDC: TVL 75M, APY 42.3, IL risk. -/
def uniswapPool : Pool :=
  { symbol := "ETH-USDC", project := "Uniswap", apy := 42.3, tvl_usd := 75000000
    chain := "Base", pool_id := "pool-2", il_risk := true, stable_pool := false
    reward_tokens := ["UNI"], base_apy := 22.3, reward_apy := 20 }

/-- Unknown/SCAM-TOKEN: TVL 0.5M, APY 250. -/
def unknownPool : Pool :=
  { symbol := "SCAM-TOKEN", project := "Unknown", apy := 250, tvl_usd := 500000
    chain := "Base", pool_id := "pool-3", il_risk := true, stable_pool := false
    reward_tokens := ["SCAM"], base_apy := 50, reward_apy := 200 }

/-- Compound/COMP-USDC: TVL 25M, APY 18.7, stable. -/
def compoundPool : Pool :=
  { symbol := "COMP-USDC", project := "Compound", apy := 18.7, tvl_usd := 25000000
    chain := "Base", pool_id := "pool-4", il_risk := false, stable_pool := true
    reward_tokens := ["COMP"], base_apy := 8.7, reward_apy := 10 }

/-- The four Scenario 1 pools in fetch order. -/
def scenario1Pools : List Pool :=
  [aerodromePool, uniswapPool, unknownPool, compoundPool]

unseal String.mapAux in
/-- C1 counterexample: the spec's Scenario 1 assigns Uniswap a protocol
score of 0 (total 52), but config places "uniswap" in tier 1 (25 points),
so its total is 77 ≥ 60 and the safe set has three pools, not two. -/
theorem scenario1_claim_counterexample :
    (calculate_safety_score uniswapPool).total_score ≠ 52 ∧
    (get_safe_base_yields config scenario1Pools (some 60)).summary.safe_pools_found ≠ 2 := by
  constructor <;>
    norm_num +decide [get_safe_base_yields, pyOr, config, calculate_safety_score,
      SafetyScoreBreakdown.calculate_total, _determine_risk_level,
      tvl_score_of, TVL_THRESHOLDS, tvlScoreAux, protocol_score_of,
      PROTOCOL_TIERS_tier1, PROTOCOL_TIERS_tier2, PROTOCOL_TIERS_tier3,
      yield_score_of, APY_THRESHOLDS, yieldScoreAux, apyInBand,
      stability_score_of, liquidity_score_of, safeFilter, poolLE, composite,
      List.mergeSort, List.merge, scenario1Pools,
      aerodromePool, uniswapPool, unknownPool, compoundPool]

unseal String.mapAux in
/-- C1 (amended): for the four pools of Scenario 1 with min_safety_score=60,
the scorer produces totals Aerodrome=100, Uniswap=77, Compound=63, Unknown=8,
and the ranker returns exactly Uniswap, Aerodrome, Compound in that order
(Uniswap first, highest composite metric), with summary safe_pools_found=3
and total_pools_analyzed=4. -/
theorem scenario1_amended :
    (calculate_safety_score aerodromePool).total_score = 100 ∧
    (calculate_safety_score uniswapPool).total_score = 77 ∧
    (calculate_safety_score compoundPool).total_score = 63 ∧
    (calculate_safety_score unknownPool).total_score = 8 ∧
    (get_safe_base_yields config scenario1Pools (some 60)).top_yields.map (·.project) =
      ["Uniswap", "Aerodrome", "Compound"] ∧
    (get_safe_base_yields config scenario1Pools (some 60)).summary.safe_pools_found = 3 ∧
    (get_safe_base_yields config scenario1Pools (some 60)).summary.total_pools_analyzed = 4 := by
  refine ⟨?_, ?_, ?_, ?_, ?_, ?_, ?_⟩ <;>
    norm_num +decide [get_safe_base_yields, pyOr, config, calculate_safety_score,
      SafetyScoreBreakdown.calculate_total, _determine_risk_level,
      tvl_score_of, TVL_THRESHOLDS, tvlScoreAux, protocol_score_of,
      PROTOCOL_TIERS_tier1, PROTOCOL_TIERS_tier2, PROTOCOL_TIERS_tier3,
      yield_score_of, APY_THRESHOLDS, yieldScoreAux, apyInBand,
      stability_score_of, liquidity_score_of, safeFilter, poolLE, composite,
      List.mergeSort, List.merge, scenario1Pools,
      aerodromePool, uniswapPool, unknownPool, compoundPool]

/-- C10: calling get_safe_base_yields with min_safety_score = 0 does not
filter with threshold 0: 0 is falsy in `min_safety_score or
config.MIN_SAFETY_SCORE`, so the configured default (60) is used instead,
and the explicit argument 0 is indistinguishable from passing no argument. -/
theorem min_score_zero_uses_default :
    (∀ (cfg : DeFiConfig) (pools : List Pool),
        get_safe_base_yields cfg pools (some 0) = get_safe_base_yields cfg pools none) ∧
    (∀ pools : List Pool, pools ≠ [] →
        (get_safe_base_yields config pools (some 0)).summary.min_safety_score_used =
          some 60) := by
  have hOr : ∀ d : ℚ, pyOr (some 0) d = pyOr none d := by intro d; simp [pyOr]
  constructor
  · intro cfg pools
    simp only [get_safe_base_yields, hOr]
  · intro pools hne
    cases pools with
    | nil => exact absurd rfl hne
    | cons p ps =>
      simp [get_safe_base_yields, pyOr, config]

/-- Witness for C10 at a concrete non-empty pool list. -/
theorem min_score_zero_uses_default_witness :
    get_safe_base_yields config [aerodromePool] (some 0) =
      get_safe_base_yields config [aerodromePool] none ∧
    ([aerodromePool] : List Pool) ≠ [] ∧
    (get_safe_base_yields config [aerodromePool] (some 0)).summary.min_safety_score_used =
      some 60 :=
  ⟨min_score_zero_uses_default.1 config [aerodromePool], by simp,
   min_score_zero_uses_default.2 [aerodromePool] (by simp)⟩

/-- First pool of the C2 witness pair; its composite metric ties with
`tiePoolB`'s. -/
def tiePoolA : Pool :=
  { symbol := "A", project := "ProtoOne", apy := 10, tvl_usd := 0
    chain := "Base", pool_id := "a", safety_score := 0 }

/-- Second pool of the C2 witness pair. -/
def tiePoolB : Pool :=
  { symbol := "B", project := "ProtoTwo", apy := 10, tvl_usd := 0
    chain := "Base", pool_id := "b", safety_score := 0 }

/-- Witness for C2 at a concrete two-pool list with tied composite metrics. -/
theorem rank_properties_witness :
    (rankPools [tiePoolA, tiePoolB] 0 5).length ≤ 5 ∧
    composite tiePoolA = composite tiePoolB ∧
    [tiePoolA, tiePoolB].Sublist (([tiePoolA, tiePoolB] : List Pool).filter (safeFilter 0)) ∧
    [tiePoolA, tiePoolB].Sublist
      ((([tiePoolA, tiePoolB] : List Pool).filter (safeFilter 0)).mergeSort poolLE) ∧
    tiePoolA ∈ rankPools [tiePoolA, tiePoolB] 0 5 ∧
    (0 : ℚ) ≤ tiePoolA.safety_score := by
  have hcomp : composite tiePoolA = composite tiePoolB := by
    norm_num [composite, tiePoolA, tiePoolB]
  have hfil : (([tiePoolA, tiePoolB] : List Pool).filter (safeFilter 0)) =
      [tiePoolA, tiePoolB] := by
    norm_num [safeFilter, tiePoolA, tiePoolB]
  have hsub : [tiePoolA, tiePoolB].Sublist
      (([tiePoolA, tiePoolB] : List Pool).filter (safeFilter 0)) := by
    rw [hfil]
  have hmem : tiePoolA ∈ rankPools [tiePoolA, tiePoolB] 0 5 := by
    rw [rankPools, hfil, List.take_of_length_le (by simp)]
    exact List.mem_mergeSort.mpr (by simp)
  exact ⟨(rank_properties [tiePoolA, tiePoolB] 0 5).1, hcomp, hsub,
    (rank_properties [tiePoolA, tiePoolB] 0 5).2.2.2.1 tiePoolA tiePoolB hcomp hsub,
    hmem, (rank_properties [tiePoolA, tiePoolB] 0 5).2.1 tiePoolA hmem⟩

/-! ### Tiered cache (src/defi_yield_finder/cache.py)

Python dictionaries are modelled as association lists with the dict update
discipline: assignment replaces an existing binding in place, otherwise
appends.  `time.time()` is passed explicitly as `now`. -/

/-- One cache entry (cache.py lines 60-64). -/
structure CacheEntry (V : Type) where
  value : V
  expires_at : ℚ
  created_at : ℚ
deriving DecidableEq, Repr

/-- Association-list rendering of Python dict lookup. -/
def dictGet {V : Type} (k : String) : List (String × CacheEntry V) → Option (CacheEntry V)
  | [] => none
  | (k', e) :: rest => if k' = k then some e else dictGet k rest

/-- Association-list rendering of Python dict assignment `d[k] = e`:
replace the existing binding in place, else append at the end. -/
def dictInsert {V : Type} (k : String) (e : CacheEntry V)
    (l : List (String × CacheEntry V)) : List (String × CacheEntry V) :=
  if (dictGet k l).isSome then
    l.map (fun kv => if kv.1 = k then (k, e) else kv)
  else l ++ [(k, e)]

/-- Association-list rendering of Python `del d[k]`. -/
def dictErase {V : Type} (k : String)
    (l : List (String × CacheEntry V)) : List (String × CacheEntry V) :=
  l.filter (fun kv => !decide (kv.1 = k))

/-- InMemoryCache state (cache.py lines 24-28): the entry dict and the time
of the last periodic cleanup. -/
structure InMemoryCache (V : Type) where
  cache : List (String × CacheEntry V)
  last_cleanup : ℚ
deriving DecidableEq, Repr

/-- InMemoryCache._cleanup_expired (cache.py lines 30-41): when more than
the 300-second cleanup interval has passed, drop every entry whose expiry
is strictly in the past, and record the cleanup time. -/
def _cleanup_expired {V : Type} (now : ℚ) (s : InMemoryCache V) : InMemoryCache V :=
  if 300 < now - s.last_cleanup then
    { cache := s.cache.filter (fun kv => !decide (kv.2.expires_at < now))
      last_cleanup := now }
  else s

/-- InMemoryCache.get (cache.py lines 43-56): run the lazy cleanup, then
return the entry's value when `now < expires_at`, deleting the entry and
returning `none` when it is expired. -/
def InMemoryCache.get {V : Type} (now : ℚ) (key : String) (s : InMemoryCache V) :
    Option V × InMemoryCache V :=
  let s1 := _cleanup_expired now s
  match dictGet key s1.cache with
  | some e =>
    if now < e.expires_at then (some e.value, s1)
    else (none, { s1 with cache := dictErase key s1.cache })
  | none => (none, s1)

/-- InMemoryCache.set (cache.py lines 58-69): store the value with absolute
expiry `now + ttl`. -/
def InMemoryCache.set {V : Type} (now : ℚ) (key : String) (value : V) (ttl : ℚ)
    (s : InMemoryCache V) : InMemoryCache V :=
  { s with cache := dictInsert key ⟨value, now + ttl, now⟩ s.cache }

/-- HybridCache state (cache.py lines 179-191) as constructed by
DeFiYieldFinder (defi_yield_finder.py lines 27-30) with the default
REDIS_ENABLED=False: `redis_cache` is None, so only the memory tier exists. -/
structure HybridCache (V : Type) where
  memory_cache : InMemoryCache V
deriving DecidableEq, Repr

/-- HybridCache.get (cache.py lines 193-207): memory tier first; the remote
tier is not configured, so a memory miss is a miss. -/
def HybridCache.get {V : Type} (now : ℚ) (key : String) (s : HybridCache V) :
    Option V × HybridCache V :=
  let r := InMemoryCache.get now key s.memory_cache
  match r.1 with
  | some value => (some value, ⟨r.2⟩)
  | none => (none, ⟨r.2⟩)

/-- HybridCache.set (cache.py lines 209-217): the locally persisted TTL is
`min(ttl, 300)`. -/
def HybridCache.set {V : Type} (now : ℚ) (key : String) (value : V) (ttl : ℚ)
    (s : HybridCache V) : HybridCache V :=
  ⟨InMemoryCache.set now key value (min ttl 300) s.memory_cache⟩

/-! ### Cache lemmas -/

lemma dictGet_map_replace {V : Type} (k : String) (e : CacheEntry V)
    (l : List (String × CacheEntry V)) (h : (dictGet k l).isSome) :
    dictGet k (l.map (fun kv => if kv.1 = k then (k, e) else kv)) = some e := by
  induction l with
  | nil => simp [dictGet] at h
  | cons kv rest ih =>
    obtain ⟨k1, e1⟩ := kv
    by_cases hk : k1 = k
    · subst hk
      simp only [List.map_cons, eq_self_iff_true, if_true]
      simp [dictGet]
    · simp only [dictGet, if_neg hk, List.map_cons] at h
      simp only [List.map_cons]
      rw [show (if (k1, e1).1 = k then (k, e) else (k1, e1)) = (k1, e1) from if_neg hk]
      simp only [dictGet, if_neg hk]
      exact ih h

lemma dictGet_append_none {V : Type} (k : String)
    (l m : List (String × CacheEntry V)) (h : dictGet k l = none) :
    dictGet k (l ++ m) = dictGet k m := by
  induction l with
  | nil => simp
  | cons kv rest ih =>
    by_cases hk : kv.1 = k
    · simp [dictGet, hk] at h
    · simp only [dictGet, if_neg hk, List.cons_append] at h ⊢
      exact ih h

lemma dictGet_none_not_mem {V : Type} (k : String)
    (l : List (String × CacheEntry V)) (h : dictGet k l = none) :
    ∀ p ∈ l, p.1 ≠ k := by
  induction l with
  | nil => simp
  | cons kv rest ih =>
    by_cases hk : kv.1 = k
    · simp [dictGet, hk] at h
    · simp only [dictGet, if_neg hk] at h
      intro p hp
      rcases List.mem_cons.mp hp with rfl | hp2
      · exact hk
      · exact ih h p hp2

lemma dictGet_insert {V : Type} (k : String) (e : CacheEntry V)
    (l : List (String × CacheEntry V)) : dictGet k (dictInsert k e l) = some e := by
  unfold dictInsert
  split
  · exact dictGet_map_replace k e l (by assumption)
  · rename_i hnone
    have hn : dictGet k l = none := Option.not_isSome_iff_eq_none.mp (by simpa using hnone)
    rw [dictGet_append_none k l _ hn]
    simp [dictGet]

lemma dictInsert_bindings {V : Type} (k : String) (e : CacheEntry V)
    (l : List (String × CacheEntry V)) :
    ∀ p ∈ dictInsert k e l, p.1 = k → p.2 = e := by
  unfold dictInsert
  split
  · intro p hp hpk
    obtain ⟨kv, _, rfl⟩ := List.mem_map.mp hp
    by_cases hk : kv.1 = k
    · simp [hk]
    · simp only [if_neg hk] at hpk
      exact absurd hpk hk
  · rename_i hnone
    intro p hp hpk
    rcases List.mem_append.mp hp with h | h
    · have hn : dictGet k l = none := Option.not_isSome_iff_eq_none.mp (by simpa using hnone)
      exact absurd hpk (dictGet_none_not_mem k l hn p h)
    · simp at h
      rw [h]

lemma dictGet_filter_some {V : Type} (k : String) (e : CacheEntry V)
    (p : String × CacheEntry V → Bool) (l : List (String × CacheEntry V))
    (hget : dictGet k l = some e) (hp : p (k, e) = true) :
    dictGet k (l.filter p) = some e := by
  induction l with
  | nil => simp [dictGet] at hget
  | cons kv rest ih =>
    by_cases hk : kv.1 = k
    · simp only [dictGet, if_pos hk] at hget
      obtain rfl := Option.some_injective _ hget
      have hkv : kv = (k, kv.2) := by rw [← hk]
      rw [List.filter_cons, hkv, hp]
      simp [dictGet]
    · simp only [dictGet, if_neg hk] at hget
      rw [List.filter_cons]
      split
      · simp only [dictGet, if_neg hk]
        exact ih hget
      · exact ih hget

lemma dictGet_filter_unique {V : Type} (k : String) (e : CacheEntry V)
    (p : String × CacheEntry V → Bool) (l : List (String × CacheEntry V))
    (huniq : ∀ q ∈ l, q.1 = k → q.2 = e) :
    dictGet k (l.filter p) = none ∨ dictGet k (l.filter p) = some e := by
  induction l with
  | nil => simp [dictGet]
  | cons kv rest ih =>
    have huniq2 : ∀ q ∈ rest, q.1 = k → q.2 = e := fun q hq => huniq q (by simp [hq])
    rw [List.filter_cons]
    split
    · by_cases hk : kv.1 = k
      · right
        have : kv.2 = e := huniq kv (by simp) hk
        simp [dictGet, hk, this]
      · simp only [dictGet, if_neg hk]
        exact ih huniq2
    · exact ih huniq2

lemma mem_cache_get_set {V : Type} (s : InMemoryCache V) (k : String) (v : V) (ttl t0 t : ℚ) :
    (t < t0 + ttl → (InMemoryCache.get t k (InMemoryCache.set t0 k v ttl s)).1 = some v) ∧
    (t0 + ttl < t → (InMemoryCache.get t k (InMemoryCache.set t0 k v ttl s)).1 = none) := by
  have hins := dictGet_insert k (⟨v, t0 + ttl, t0⟩ : CacheEntry V) s.cache
  have huniq := dictInsert_bindings k (⟨v, t0 + ttl, t0⟩ : CacheEntry V) s.cache
  constructor
  · intro ht
    simp only [InMemoryCache.get, InMemoryCache.set, _cleanup_expired]
    by_cases hcl : 300 < t - s.last_cleanup
    · simp only [if_pos hcl]
      have hkeep : (fun kv : String × CacheEntry V => !decide (kv.2.expires_at < t))
          (k, (⟨v, t0 + ttl, t0⟩ : CacheEntry V)) = true := by
        simp only [Bool.not_eq_true', decide_eq_false_iff_not]
        exact not_lt.mpr (le_of_lt ht)
      rw [dictGet_filter_some k _ _ _ hins hkeep]
      simp only [if_pos ht]
    · simp only [if_neg hcl]
      rw [hins]
      simp only [if_pos ht]
  · intro ht
    have hnlt : ¬ t < t0 + ttl := not_lt.mpr (le_of_lt ht)
    simp only [InMemoryCache.get, InMemoryCache.set, _cleanup_expired]
    by_cases hcl : 300 < t - s.last_cleanup
    · simp only [if_pos hcl]
      rcases dictGet_filter_unique k (⟨v, t0 + ttl, t0⟩ : CacheEntry V)
          (fun kv => !decide (kv.2.expires_at < t)) _ huniq with hnone | hsome
      · rw [hnone]
      · rw [hsome]
        simp only [if_neg hnlt]
    · simp only [if_neg hcl]
      rw [hins]
      simp only [if_neg hnlt]

lemma hybrid_get_fst {V : Type} (now : ℚ) (key : String) (s : HybridCache V) :
    (HybridCache.get now key s).1 = (InMemoryCache.get now key s.memory_cache).1 := by
  simp only [HybridCache.get]
  rcases InMemoryCache.get now key s.memory_cache with ⟨v, m⟩
  cases v <;> rfl

/-- C3: after cache.set(k, v, ttl), cache.get(k) returns v at every time
strictly before the entry's expiry and absent at every time strictly after
it, even before the expired entry is physically purged.  For the memory tier
the entry expires at t0 + ttl; for the tiered (hybrid) cache the locally
persisted entry expires at t0 + min(ttl, 300). -/
theorem cache_set_get_ttl {V : Type} (s : InMemoryCache V) (hs : HybridCache V)
    (k : String) (v : V) (ttl t0 t : ℚ) :
    (t < t0 + ttl → (InMemoryCache.get t k (InMemoryCache.set t0 k v ttl s)).1 = some v) ∧
    (t0 + ttl < t → (InMemoryCache.get t k (InMemoryCache.set t0 k v ttl s)).1 = none) ∧
    (t < t0 + min ttl 300 → (HybridCache.get t k (HybridCache.set t0 k v ttl hs)).1 = some v) ∧
    (t0 + min ttl 300 < t → (HybridCache.get t k (HybridCache.set t0 k v ttl hs)).1 = none) := by
  refine ⟨(mem_cache_get_set s k v ttl t0 t).1, (mem_cache_get_set s k v ttl t0 t).2, ?_, ?_⟩
  · intro ht
    rw [HybridCache.set, hybrid_get_fst]
    exact (mem_cache_get_set hs.memory_cache k v (min ttl 300) t0 t).1 ht
  · intro ht
    rw [HybridCache.set, hybrid_get_fst]
    exact (mem_cache_get_set hs.memory_cache k v (min ttl 300) t0 t).2 ht

/-- Witness for C3: a concrete entry with ttl 10 set at time 0 is visible at
time 1 and absent at time 11, on both the memory tier and the hybrid cache. -/
theorem cache_set_get_ttl_witness :
    ((1 : ℚ) < 0 + 10 ∧
      (InMemoryCache.get 1 "k" (InMemoryCache.set 0 "k" (7 : ℕ) 10 ⟨[], 0⟩)).1 = some 7) ∧
    ((0 : ℚ) + 10 < 11 ∧
      (InMemoryCache.get 11 "k" (InMemoryCache.set 0 "k" (7 : ℕ) 10 ⟨[], 0⟩)).1 = none) ∧
    ((1 : ℚ) < 0 + min 10 300 ∧
      (HybridCache.get 1 "k" (HybridCache.set 0 "k" (7 : ℕ) 10 ⟨⟨[], 0⟩⟩)).1 = some 7) ∧
    ((0 : ℚ) + min 10 300 < 11 ∧
      (HybridCache.get 11 "k" (HybridCache.set 0 "k" (7 : ℕ) 10 ⟨⟨[], 0⟩⟩)).1 = none) :=
  ⟨⟨by norm_num, (cache_set_get_ttl ⟨[], 0⟩ ⟨⟨[], 0⟩⟩ "k" 7 10 0 1).1 (by norm_num)⟩,
   ⟨by norm_num, (cache_set_get_ttl ⟨[], 0⟩ ⟨⟨[], 0⟩⟩ "k" 7 10 0 11).2.1 (by norm_num)⟩,
   ⟨by norm_num, (cache_set_get_ttl ⟨[], 0⟩ ⟨⟨[], 0⟩⟩ "k" 7 10 0 1).2.2.1 (by norm_num)⟩,
   ⟨by norm_num, (cache_set_get_ttl ⟨[], 0⟩ ⟨⟨[], 0⟩⟩ "k" 7 10 0 11).2.2.2 (by norm_num)⟩⟩

/-! ### Rate limiter (defi_yield_finder.py lines 46-57) -/

/-- The sliding-window discard: keep recorded timestamps strictly newer than
`hour_ago = now - 3600` (defi_yield_finder.py lines 47-50). -/
def rlFilter (now : ℚ) (ts : List ℚ) : List ℚ :=
  ts.filter (fun t => decide (now - 3600 < t))

/-- DeFiYieldFinder._check_rate_limit (defi_yield_finder.py lines 46-57) as
a state transformer on the `_request_times` list: discard old timestamps,
then admit and record only while the remaining count is below the hourly
cap. -/
def _check_rate_limit (maxReq : ℕ) (now : ℚ) (ts : List ℚ) : Bool × List ℚ :=
  let ts2 := rlFilter now ts
  if ts2.length < maxReq then (true, ts2 ++ [now]) else (false, ts2)

/-- Run the rate limiter over a sequence of call times, returning each
call's outcome paired with its time. -/
def rlRun (maxReq : ℕ) (s : List ℚ) : List ℚ → List (Bool × ℚ)
  | [] => []
  | now :: rest =>
    let r := _check_rate_limit maxReq now s
    (r.1, now) :: rlRun maxReq r.2 rest

/-- Timestamps of the admitted (true-returning) calls. -/
def rlTrueTimes (out : List (Bool × ℚ)) : List ℚ :=
  (out.filter (fun br => br.1)).map (fun br => br.2)

/-- Membership of a timestamp in the rolling window (T, T + 3600]. -/
def inWindow (T t : ℚ) : Bool := decide (T < t) && decide (t ≤ T + 3600)

lemma rlTrueTimes_cons (b : Bool) (now : ℚ) (rest : List (Bool × ℚ)) :
    rlTrueTimes ((b, now) :: rest) =
      if b then now :: rlTrueTimes rest else rlTrueTimes rest := by
  cases b <;> simp [rlTrueTimes]

lemma rlRun_past_window (maxReq : ℕ) (T : ℚ) :
    ∀ (times s : List ℚ), (∀ m ∈ times, T + 3600 < m) →
      (rlTrueTimes (rlRun maxReq s times)).filter (inWindow T) = [] := by
  intro times
  induction times with
  | nil => intro s _; simp [rlRun, rlTrueTimes]
  | cons now rest ih =>
    intro s h
    have hnow : T + 3600 < now := h now (by simp)
    have hnw : inWindow T now = false := by
      have hnle : ¬ (now ≤ T + 3600) := not_le.mpr hnow
      simp [inWindow, hnle]
    have hrest : ∀ m ∈ rest, T + 3600 < m := fun m hm => h m (List.mem_cons_of_mem _ hm)
    simp only [rlRun]
    rw [rlTrueTimes_cons]
    split
    · rw [List.filter_cons, hnw]
      exact ih _ hrest
    · exact ih _ hrest

lemma rlRun_window_invariant (maxReq : ℕ) (T : ℚ) :
    ∀ (times s : List ℚ), times.Pairwise (· ≤ ·) →
      (s.filter (inWindow T)).length ≤ maxReq →
      ((rlTrueTimes (rlRun maxReq s times)).filter (inWindow T)).length
        + (s.filter (inWindow T)).length ≤ maxReq := by
  intro times
  induction times with
  | nil => intro s _ hs; simpa [rlRun, rlTrueTimes] using hs
  | cons now rest ih =>
    intro s hp hs
    have hnr : ∀ m ∈ rest, now ≤ m := (List.pairwise_cons.mp hp).1
    have hrest : rest.Pairwise (· ≤ ·) := (List.pairwise_cons.mp hp).2
    by_cases hwin : now ≤ T + 3600
    · have hfe : (rlFilter now s).filter (inWindow T) = s.filter (inWindow T) := by
        unfold rlFilter
        rw [List.filter_filter]
        apply List.filter_congr
        intro a _
        cases hq : inWindow T a
        · simp
        · have hTa : T < a := by
            have h2 := hq
            simp only [inWindow, Bool.and_eq_true, decide_eq_true_eq] at h2
            exact h2.1
          have h3 : now - 3600 < a := by linarith
          simp [h3]
      simp only [rlRun, _check_rate_limit]
      split
      · rename_i hc
        rw [rlTrueTimes_cons, if_pos rfl, List.filter_cons]
        have hone : ((rlFilter now s ++ [now]).filter (inWindow T)).length =
            (s.filter (inWindow T)).length + (if inWindow T now then 1 else 0) := by
          rw [List.filter_append, List.length_append, hfe]
          by_cases hnw : inWindow T now <;> simp [hnw]
        have hWle : (s.filter (inWindow T)).length ≤ (rlFilter now s).length := by
          rw [← hfe]
          exact List.length_filter_le _ _
        have hnew : ((rlFilter now s ++ [now]).filter (inWindow T)).length ≤ maxReq := by
          rw [hone]
          by_cases hnw : inWindow T now <;> simp [hnw] <;> omega
        have hihr := ih (rlFilter now s ++ [now]) hrest hnew
        rw [hone] at hihr
        by_cases hnw : inWindow T now
        · simp only [hnw, if_true, List.length_cons] at hihr ⊢
          omega
        · have hnwf : inWindow T now = false := by simpa using hnw
          simp only [hnwf, Bool.false_eq_true, if_false] at hihr ⊢
          omega
      · rename_i hc
        rw [rlTrueTimes_cons, if_neg (by simp)]
        have hihr := ih (rlFilter now s) hrest (by rw [hfe]; exact hs)
        rw [hfe] at hihr
        exact hihr
    · have hnow : T + 3600 < now := not_le.mp hwin
      have hrest2 : ∀ m ∈ rest, T + 3600 < m := fun m hm => lt_of_lt_of_le hnow (hnr m hm)
      have hnle : ¬ (now ≤ T + 3600) := hwin
      have hnw : inWindow T now = false := by
        simp [inWindow, hnle]
      simp only [rlRun]
      rcases hb : _check_rate_limit maxReq now s with ⟨b, s2⟩
      simp only [hb]
      cases b with
      | false =>
        rw [rlTrueTimes_cons, if_neg (by simp), rlRun_past_window maxReq T rest s2 hrest2]
        simpa using hs
      | true =>
        rw [rlTrueTimes_cons, if_pos rfl, List.filter_cons, hnw,
          if_neg (by simp), rlRun_past_window maxReq T rest s2 hrest2]
        simpa using hs

/-- C4 counterexample: with non-monotone call timestamps the rolling-window
bound fails.  With max_per_hour = 2 and calls at times 3600, 7300, 3500,
10900, 3400, every call is admitted (the calls at 7300 and 10900 discard the
earlier recorded timestamps), so the window (3399, 6999] contains three
admitted calls (3600, 3500, 3400). -/
theorem rate_limit_window_counterexample :
    ¬ (∀ (maxReq : ℕ) (times : List ℚ) (T : ℚ),
        ((rlTrueTimes (rlRun maxReq [] times)).filter (inWindow T)).length ≤ maxReq) := by
  intro h
  have h2 := h 2 [3600, 7300, 3500, 10900, 3400] 3399
  norm_num [rlRun, _check_rate_limit, rlFilter, rlTrueTimes, inWindow] at h2

/-- C4 (amended): for every sequence of calls at non-decreasing timestamps,
allow() returns true at most max_per_hour times within any rolling
3600-second window (T, T+3600]; and on each call it first discards recorded
timestamps at or below now - 3600, then returns true and records the
timestamp exactly when the remaining count is below max_per_hour, and
returns false without recording otherwise. -/
theorem rate_limit_window_amended (maxReq : ℕ) (times : List ℚ) (T : ℚ)
    (hmono : times.Pairwise (· ≤ ·)) :
    ((rlTrueTimes (rlRun maxReq [] times)).filter (inWindow T)).length ≤ maxReq ∧
    (∀ (now : ℚ) (ts : List ℚ),
      _check_rate_limit maxReq now ts =
        if (rlFilter now ts).length < maxReq
        then (true, rlFilter now ts ++ [now]) else (false, rlFilter now ts)) := by
  refine ⟨?_, fun now ts => rfl⟩
  have h := rlRun_window_invariant maxReq T times [] hmono (by simp)
  simpa using h

/-- Witness for C4 (amended) at a concrete monotone call sequence. -/
theorem rate_limit_window_amended_witness :
    (([0, 10] : List ℚ).Pairwise (· ≤ ·)) ∧
    ((rlTrueTimes (rlRun 1 [] [0, 10])).filter (inWindow (-1))).length ≤ 1 :=
  ⟨by norm_num [List.pairwise_cons],
   (rate_limit_window_amended 1 [0, 10] (-1) (by norm_num [List.pairwise_cons])).1⟩

/-! ### Fetcher (defi_yield_finder.py lines 59-138)

The upstream HTTP interaction is abstracted as an `Except` parameter: `.ok`
carries the decoded JSON pool list, `.error` one of the failure modes the
handlers distinguish.  `madeRequest` records whether the upstream call was
issued. -/

/-- Raw upstream pool object (one element of the JSON array); every field
may be missing (defaults applied by Pool.from_api_data). -/
structure RawPool where
  chain : Option String := none
  project : Option String := none
  symbol : Option String := none
  tvlUsd : Option ℚ := none
  apy : Option ℚ := none
  pool : Option String := none
  poolMeta : Option String := none
  ilRisk : Option Bool := none
  stablecoin : Option Bool := none
  rewardTokens : Option (List String) := none
  apyBase : Option ℚ := none
  apyReward : Option ℚ := none
deriving DecidableEq, Repr

/-- Pool.from_api_data (models.py lines 33-48): missing numerics default to
0, missing flags to False, missing identifiers to the empty string. -/
def Pool.from_api_data (r : RawPool) : Pool :=
  { symbol := r.symbol.getD ""
    project := r.project.getD ""
    apy := r.apy.getD 0
    tvl_usd := r.tvlUsd.getD 0
    chain := r.chain.getD ""
    pool_id := r.pool.getD ""
    pool_meta := r.poolMeta
    il_risk := r.ilRisk.getD false
    stable_pool := r.stablecoin.getD false
    reward_tokens := r.rewardTokens.getD []
    base_apy := r.apyBase.getD 0
    reward_apy := r.apyReward.getD 0 }

/-- Failure modes of the upstream call, matching the exception handlers of
the blocking fetch (Timeout / RequestException / Exception,
defi_yield_finder.py lines 90-98) and the suspending fetch
(asyncio.TimeoutError / Exception, lines 133-138). -/
inductive UpstreamError where
  | timeout
  | connError
  | httpError
  | parseError
  | other
deriving DecidableEq, Repr

/-- Cache key `f"base_yields_{TARGET_CHAIN}"` (defi_yield_finder.py line 60). -/
def cache_key (cfg : DeFiConfig) : String := "base_yields_" ++ cfg.TARGET_CHAIN

/-- Result of one fetch cycle: returned pools, cache and rate-limiter state
after the call, and whether the upstream request was issued. -/
structure FetchResult where
  pools : List Pool
  cache : HybridCache (List RawPool)
  request_times : List ℚ
  madeRequest : Bool
deriving DecidableEq, Repr

/-- DeFiYieldFinder.fetch_base_yields, blocking variant (defi_yield_finder.py
lines 59-98).  Note line 64 `if cached_data:` is a truthiness test, so a
cached empty list falls through to the rate limiter and the network call. -/
def fetch_base_yields (cfg : DeFiConfig) (now : ℚ) (cache : HybridCache (List RawPool))
    (request_times : List ℚ) (upstream : Except UpstreamError (List RawPool)) :
    FetchResult :=
  let key := cache_key cfg
  let cacheTry := if cfg.CACHE_ENABLED then HybridCache.get now key cache else (none, cache)
  let proceed : HybridCache (List RawPool) → FetchResult := fun cache1 =>
    let rl := _check_rate_limit cfg.API_MAX_REQUESTS_PER_HOUR now request_times
    if !rl.1 then { pools := [], cache := cache1, request_times := rl.2, madeRequest := false }
    else
      match upstream with
      | .ok all_pools =>
        let base_pools := all_pools.filter
          (fun p => (p.chain.getD "").toLower == cfg.TARGET_CHAIN.toLower)
        let cache2 := if cfg.CACHE_ENABLED && !base_pools.isEmpty
          then HybridCache.set now key base_pools cfg.CACHE_DURATION cache1 else cache1
        { pools := base_pools.map Pool.from_api_data, cache := cache2
          request_times := rl.2, madeRequest := true }
      | .error .timeout =>
        { pools := [], cache := cache1, request_times := rl.2, madeRequest := true }
      | .error .connError =>
        { pools := [], cache := cache1, request_times := rl.2, madeRequest := true }
      | .error .httpError =>
        { pools := [], cache := cache1, request_times := rl.2, madeRequest := true }
      | .error .parseError =>
        { pools := [], cache := cache1, request_times := rl.2, madeRequest := true }
      | .error .other =>
        { pools := [], cache := cache1, request_times := rl.2, madeRequest := true }
  match cacheTry.1 with
  | some cached_data =>
    if cached_data.isEmpty then proceed cacheTry.2
    else { pools := cached_data.map Pool.from_api_data, cache := cacheTry.2
           request_times := request_times, madeRequest := false }
  | none => proceed cacheTry.2

/-- DeFiYieldFinder.fetch_base_yields_async, suspending variant
(defi_yield_finder.py lines 100-138); it differs from the blocking variant
only in the exception handler chain (asyncio.TimeoutError, then bare
Exception). -/
def fetch_base_yields_async (cfg : DeFiConfig) (now : ℚ)
    (cache : HybridCache (List RawPool)) (request_times : List ℚ)
    (upstream : Except UpstreamError (List RawPool)) : FetchResult :=
  let key := cache_key cfg
  let cacheTry := if cfg.CACHE_ENABLED then HybridCache.get now key cache else (none, cache)
  let proceed : HybridCache (List RawPool) → FetchResult := fun cache1 =>
    let rl := _check_rate_limit cfg.API_MAX_REQUESTS_PER_HOUR now request_times
    if !rl.1 then { pools := [], cache := cache1, request_times := rl.2, madeRequest := false }
    else
      match upstream with
      | .ok all_pools =>
        let base_pools := all_pools.filter
          (fun p => (p.chain.getD "").toLower == cfg.TARGET_CHAIN.toLower)
        let cache2 := if cfg.CACHE_ENABLED && !base_pools.isEmpty
          then HybridCache.set now key base_pools cfg.CACHE_DURATION cache1 else cache1
        { pools := base_pools.map Pool.from_api_data, cache := cache2
          request_times := rl.2, madeRequest := true }
      | .error .timeout =>
        { pools := [], cache := cache1, request_times := rl.2, madeRequest := true }
      | .error _ =>
        { pools := [], cache := cache1, request_times := rl.2, madeRequest := true }
  match cacheTry.1 with
  | some cached_data =>
    if cached_data.isEmpty then proceed cacheTry.2
    else { pools := cached_data.map Pool.from_api_data, cache := cacheTry.2
           request_times := request_times, madeRequest := false }
  | none => proceed cacheTry.2

/-- A fetch cycle hits the cache when caching is enabled and the stored
(unexpired) value is truthy, i.e. a non-empty list. -/
def cacheHit (cfg : DeFiConfig) (now : ℚ) (cache : HybridCache (List RawPool)) : Bool :=
  cfg.CACHE_ENABLED &&
    (match (HybridCache.get now (cache_key cfg) cache).1 with
     | some d => !d.isEmpty
     | none => false)

/-- C9: the blocking fetch and the suspending (async) fetch are behaviorally
equivalent: for identical configuration, cache state, rate-limiter state and
upstream outcome they return the same pools, the same updated cache and
limiter state, and the same request flag — same cache key, same
case-insensitive chain filter, same normalization, same caching condition,
and every failure mapped to the same empty list. -/
theorem fetch_sync_async_equiv (cfg : DeFiConfig) (now : ℚ)
    (cache : HybridCache (List RawPool)) (rt : List ℚ)
    (up : Except UpstreamError (List RawPool)) :
    fetch_base_yields cfg now cache rt up = fetch_base_yields_async cfg now cache rt up := by
  unfold fetch_base_yields fetch_base_yields_async
  rcases up with e | l
  · cases e <;> rfl
  · rfl

/-- C5 (amended): when caching is enabled and the cache holds an unexpired
entry with a NON-EMPTY pool list for the chain's key, fetch returns the Pool
entities deserialized from that cached data and leaves the rate limiter's
recorded-timestamp state unchanged, issuing no upstream request.  (An
unexpired entry holding the empty list is falsy and falls through to the
rate limiter and the network call.) -/
theorem fetch_cache_hit_frame (cfg : DeFiConfig) (now : ℚ)
    (cache : HybridCache (List RawPool)) (rt : List ℚ)
    (up : Except UpstreamError (List RawPool)) (d : List RawPool)
    (hc : cfg.CACHE_ENABLED = true)
    (hd : (HybridCache.get now (cache_key cfg) cache).1 = some d)
    (hne : d ≠ []) :
    (fetch_base_yields cfg now cache rt up).pools = d.map Pool.from_api_data ∧
    (fetch_base_yields cfg now cache rt up).request_times = rt ∧
    (fetch_base_yields cfg now cache rt up).madeRequest = false := by
  have hie : d.isEmpty = false := by
    cases d with
    | nil => exact absurd rfl hne
    | cons x xs => rfl
  simp only [fetch_base_yields, hc, if_true, hd, hie, Bool.false_eq_true, if_false]
  exact ⟨trivial, trivial, trivial⟩

/-- A cache whose only entry is an unexpired EMPTY pool list under the
default chain's key, set at time 0 with expiry 1000. -/
def emptyEntryCache : HybridCache (List RawPool) :=
  ⟨⟨[("base_yields_Base", ⟨[], 1000, 0⟩)], 0⟩⟩

/-- C5 counterexample: with caching enabled and an unexpired cache entry for
the chain's key whose value is the empty list, fetch does NOT return the
cached data path: `if cached_data:` is falsy, so the rate limiter runs (its
state changes) and the upstream request is issued. -/
theorem fetch_cache_hit_claim_counterexample :
    config.CACHE_ENABLED = true ∧
    (HybridCache.get 10 (cache_key config) emptyEntryCache).1 = some [] ∧
    (fetch_base_yields config 10 emptyEntryCache [] (.ok [])).request_times = [10] ∧
    (fetch_base_yields config 10 emptyEntryCache [] (.ok [])).madeRequest = true := by
  have hk : ("base_yields_" ++ "Base" : String) = "base_yields_Base" := rfl
  refine ⟨rfl, ?_, ?_, ?_⟩ <;>
    norm_num [fetch_base_yields, cache_key, config, emptyEntryCache, HybridCache.get,
      InMemoryCache.get, _cleanup_expired, dictGet, dictErase, _check_rate_limit,
      rlFilter, Pool.from_api_data, hk]

/-- A cache holding an unexpired singleton pool list under the default
chain's key. -/
def oneEntryCache : HybridCache (List RawPool) :=
  ⟨⟨[("base_yields_Base", ⟨[{ chain := some "Base" }], 1000, 0⟩)], 0⟩⟩

/-- Witness for C5 (amended) at a concrete cache state with one non-empty
unexpired entry. -/
theorem fetch_cache_hit_frame_witness :
    config.CACHE_ENABLED = true ∧
    (HybridCache.get 10 (cache_key config) oneEntryCache).1 =
      some [{ chain := some "Base" }] ∧
    ([({ chain := some "Base" } : RawPool)] ≠ ([] : List RawPool)) ∧
    (fetch_base_yields config 10 oneEntryCache [] (.ok [])).pools =
      [Pool.from_api_data { chain := some "Base" }] ∧
    (fetch_base_yields config 10 oneEntryCache [] (.ok [])).request_times = [] ∧
    (fetch_base_yields config 10 oneEntryCache [] (.ok [])).madeRequest = false := by
  have hd : (HybridCache.get 10 (cache_key config) oneEntryCache).1 =
      some [{ chain := some "Base" }] := by
    norm_num [cache_key, config, oneEntryCache, HybridCache.get,
      InMemoryCache.get, _cleanup_expired, dictGet,
      show ("base_yields_" ++ "Base" : String) = "base_yields_Base" from rfl]
  have hne : ([({ chain := some "Base" } : RawPool)] ≠ ([] : List RawPool)) := by simp
  have h := fetch_cache_hit_frame config 10 oneEntryCache [] (.ok []) _ rfl hd hne
  exact ⟨rfl, hd, hne, h.1, h.2.1, h.2.2⟩

/-- C6: fetch never raises — it is a total function into pool lists — and it
maps every upstream failure outcome (timeout, connection error,
non-retryable status, parse failure, other) and every rate-limited
(throttled) cycle to the empty list: whenever the upstream request was
issued and failed, the returned pools are empty, and whenever the cache did
not hit and the limiter denies, fetch returns the empty list without issuing
the request. -/
theorem fetch_failure_empty (cfg : DeFiConfig) (now : ℚ)
    (cache : HybridCache (List RawPool)) (rt : List ℚ) :
    (∀ e : UpstreamError,
      (fetch_base_yields cfg now cache rt (.error e)).madeRequest = true →
      (fetch_base_yields cfg now cache rt (.error e)).pools = []) ∧
    (cacheHit cfg now cache = false →
      (_check_rate_limit cfg.API_MAX_REQUESTS_PER_HOUR now rt).1 = false →
      ∀ up : Except UpstreamError (List RawPool),
        (fetch_base_yields cfg now cache rt up).pools = [] ∧
        (fetch_base_yields cfg now cache rt up).madeRequest = false) := by
  constructor
  · intro e
    simp only [fetch_base_yields]
    split
    · rename_i cached_data heq
      by_cases hie : cached_data.isEmpty
      · simp only [hie, if_true]
        by_cases hrl : (_check_rate_limit cfg.API_MAX_REQUESTS_PER_HOUR now rt).1
        · simp only [hrl, Bool.not_true, Bool.false_eq_true, if_false]
          cases e <;> simp
        · have hrlf : (_check_rate_limit cfg.API_MAX_REQUESTS_PER_HOUR now rt).1 = false := by
            simpa using hrl
          simp [hrlf]
      · have hief : cached_data.isEmpty = false := by simpa using hie
        simp [hief]
    · by_cases hrl : (_check_rate_limit cfg.API_MAX_REQUESTS_PER_HOUR now rt).1
      · simp only [hrl, Bool.not_true, Bool.false_eq_true, if_false]
        cases e <;> simp
      · have hrlf : (_check_rate_limit cfg.API_MAX_REQUESTS_PER_HOUR now rt).1 = false := by
          simpa using hrl
        simp [hrlf]
  · intro hch hrl up
    simp only [cacheHit, Bool.and_eq_false_iff] at hch
    simp only [fetch_base_yields]
    rcases hch with hc | hm
    · simp [hc, hrl]
    · by_cases hc : cfg.CACHE_ENABLED
      · simp only [hc, if_true]
        rcases hg : (HybridCache.get now (cache_key cfg) cache).1 with _ | d
        · simp [hg, hrl]
        · rw [hg] at hm
          have hie : d.isEmpty = true := by simpa using hm
          simp [hg, hie, hrl]
      · have hcf : cfg.CACHE_ENABLED = false := by simpa using hc
        simp [hcf, hrl]

/-- Configuration with caching disabled (used by the C6 witness). -/
def noCacheCfg : DeFiConfig := { CACHE_ENABLED := false }

/-- Configuration with caching disabled and a zero hourly request cap (used
by the C6 witness to exercise the throttled path). -/
def throttledCfg : DeFiConfig := { CACHE_ENABLED := false, API_MAX_REQUESTS_PER_HOUR := 0 }

/-- Witness for C6: a timed-out request maps to the empty pool list, and a
throttled cycle maps to the empty pool list without issuing the request. -/
theorem fetch_failure_empty_witness :
    ((fetch_base_yields noCacheCfg 0 ⟨⟨[], 0⟩⟩ [] (.error .timeout)).madeRequest = true) ∧
    ((fetch_base_yields noCacheCfg 0 ⟨⟨[], 0⟩⟩ [] (.error .timeout)).pools = []) ∧
    (cacheHit throttledCfg 0 ⟨⟨[], 0⟩⟩ = false) ∧
    ((_check_rate_limit throttledCfg.API_MAX_REQUESTS_PER_HOUR 0 []).1 = false) ∧
    ((fetch_base_yields throttledCfg 0 ⟨⟨[], 0⟩⟩ [] (.ok [])).pools = [] ∧
     (fetch_base_yields throttledCfg 0 ⟨⟨[], 0⟩⟩ [] (.ok [])).madeRequest = false) := by
  have hreq : (fetch_base_yields noCacheCfg 0 ⟨⟨[], 0⟩⟩ [] (.error .timeout)).madeRequest =
      true := by
    norm_num [fetch_base_yields, noCacheCfg, _check_rate_limit, rlFilter]
  have hch : cacheHit throttledCfg 0 ⟨⟨[], 0⟩⟩ = false := by
    norm_num [cacheHit, throttledCfg]
  have hrlf : (_check_rate_limit throttledCfg.API_MAX_REQUESTS_PER_HOUR 0 []).1 = false := by
    norm_num [_check_rate_limit, rlFilter, throttledCfg]
  exact ⟨hreq, (fetch_failure_empty noCacheCfg 0 ⟨⟨[], 0⟩⟩ []).1 .timeout hreq, hch, hrlf,
    (fetch_failure_empty throttledCfg 0 ⟨⟨[], 0⟩⟩ []).2 hch hrlf (.ok [])⟩
